import Mathlib

/-!
Verification development for the VictoriaLogs integration module
(testrun_investigator/victoria_logs.py): log ingestion batching,
record enrichment, background worker lifecycle, task-status registry,
and LogsQL query construction / execution.

Python `Optional[str]` parameters are modelled as `Option String`; Python
truthiness tests (`if start_time:`) are modelled by `isTruthy`, which is
false for `none` and for `some ""`.
-/

/-- Python truthiness of an `Optional[str]` value: `None` and `""` are falsy. -/
def isTruthy : Option String → Bool
  | none => false
  | some s => s ≠ ""

/-- Python truthiness of an `Optional[int]` value: `None` and `0` are falsy. -/
def intTruthy : Option Int → Bool
  | none => false
  | some n => n ≠ 0

/-- Hex digit test, as accepted by `int(s, 16)` for a single character. -/
def isHexDig (c : Char) : Bool :=
  c.isDigit || ('a' ≤ c && c ≤ 'f') || ('A' ≤ c && c ≤ 'F')

/-- Remove every (left-to-right, non-overlapping) occurrence of `urn:`,
as Python's `s.replace('urn:', '')`. -/
def removeUrn : List Char → List Char
  | 'u' :: 'r' :: 'n' :: ':' :: cs => removeUrn cs
  | c :: cs => c :: removeUrn cs
  | [] => []

/-- Remove every (left-to-right, non-overlapping) occurrence of `uuid:`,
as Python's `s.replace('uuid:', '')`. -/
def removeUuidColon : List Char → List Char
  | 'u' :: 'u' :: 'i' :: 'd' :: ':' :: cs => removeUuidColon cs
  | c :: cs => c :: removeUuidColon cs
  | [] => []

/-- Strip leading and trailing `{` / `}` characters, as Python's
`str.strip('\x7b\x7d')` does in `uuid.UUID.__init__`. -/
def stripBraces (l : List Char) : List Char :=
  let isBrace : Char → Bool := fun c => c = '\x7b' || c = '\x7d'
  ((l.dropWhile isBrace).reverse.dropWhile isBrace).reverse

/-- Whether `uuid.UUID(s)` succeeds on a string, following CPython's
`uuid.UUID.__init__`: remove `urn:` and `uuid:`, strip surrounding braces,
remove `-`, then require exactly 32 hexadecimal digits. (The tolerance of
`int(_, 16)` for underscore separators and an `0x` prefix is not modelled;
no claim depends on such inputs.) -/
def pyUUIDParses (s : String) : Bool :=
  let h := removeUuidColon (removeUrn s.data)
  let h := (stripBraces h).filter (fun c => c ≠ '-')
  h.length = 32 && h.all isHexDig

/-- Consume exactly `n` decimal digits from the front of a character list. -/
def matchDigits : Nat → List Char → Option (List Char)
  | 0, cs => some cs
  | _ + 1, [] => none
  | n + 1, c :: cs => if c.isDigit then matchDigits n cs else none

/-- Consume one expected literal character. -/
def matchLit (ch : Char) : List Char → Option (List Char)
  | [] => none
  | c :: cs => if c = ch then some cs else none

/-- Drop a maximal run of decimal digits. -/
def dropDigits : List Char → List Char
  | [] => []
  | c :: cs => if c.isDigit then dropDigits cs else c :: cs

/-- Match the regex tail `Z?$`. -/
def zEnd : List Char → Bool
  | [] => true
  | ['Z'] => true
  | _ => false

/-- Match the regex tail `(\.\d+)?Z?$`. -/
def fracZEnd : List Char → Bool
  | [] => true
  | ['Z'] => true
  | '.' :: c :: cs => c.isDigit && zEnd (dropDigits (c :: cs))
  | _ => false

/-- `_validate_iso8601_timestamp`'s pattern
`^\d\x7b4\x7d-\d\x7b2\x7d-\d\x7b2\x7dT\d\x7b2\x7d:\d\x7b2\x7d:\d\x7b2\x7d(\.\d+)?Z?$`. -/
def isISO8601 (s : String) : Bool :=
  let step := (matchDigits 4 s.data).bind (matchLit '-')
    |>.bind (matchDigits 2) |>.bind (matchLit '-')
    |>.bind (matchDigits 2) |>.bind (matchLit 'T')
    |>.bind (matchDigits 2) |>.bind (matchLit ':')
    |>.bind (matchDigits 2) |>.bind (matchLit ':')
    |>.bind (matchDigits 2)
  match step with
  | none => false
  | some rest => fracZEnd rest

example : isISO8601 "2025-05-17T04:44:00Z" = true := by decide
example : isISO8601 "2025-05-17T04:44:00.123Z" = true := by decide
example : isISO8601 "2025-05-17T04:44:00" = true := by decide
example : isISO8601 "2025-05-17" = false := by decide
example : isISO8601 "" = false := by decide
example : isISO8601 "2025-05-17T04:44:00.Z" = false := by decide
example : pyUUIDParses "123e4567-e89b-12d3-a456-426614174000" = true := by decide
example : pyUUIDParses "not-a-uuid" = false := by decide
example : pyUUIDParses "" = false := by decide

/-- Validation failures (Python `ValueError` raised by the pre-flight
checks; the spec's `ValidationError`). -/
inductive ValidationError where
  | invalidRunId (runId : String)
  | invalidUUID (s : String)
  | invalidStreamType (streamType : String)
  | invalidTimestamp (ts : String)
deriving DecidableEq, Repr

/-- `if start_time: self._validate_iso8601_timestamp(start_time)`: a falsy
value (absent or empty) is not validated at all. -/
def validateOptTimestamp : Option String → Except ValidationError Unit
  | none => Except.ok ()
  | some s =>
    if s = "" then Except.ok ()
    else if isISO8601 s then Except.ok () else Except.error (.invalidTimestamp s)

/-- The LogsQL base stream filter `\x7bstream="<stream>", run_id="<runID>"\x7d`. -/
def streamSelector (streamType runId : String) : String :=
  "\x7bstream=\"" ++ streamType ++ "\", run_id=\"" ++ runId ++ "\"\x7d"

/-- The optional `_time:[...]` clause, keyed on Python truthiness of the two
bounds, exactly as the three `if start_time and end_time` / `elif` branches. -/
def timeClause (startT endT : Option String) : String :=
  if isTruthy startT && isTruthy endT then
    " _time:[" ++ startT.getD "" ++ "," ++ endT.getD "" ++ "]"
  else if isTruthy startT then
    " _time:[" ++ startT.getD "" ++ ",]"
  else if isTruthy endT then
    " _time:[," ++ endT.getD "" ++ "]"
  else ""

/-- The optional `| limit N` clause: appended only when `limit` is truthy
(`if limit:`), so `0` behaves like an absent limit. -/
def limitClause (limit : Option Int) : String :=
  if intTruthy limit then " | limit " ++ toString (limit.getD 0) else ""

/-- `query_actions_log` up to the network call: validation order (run id,
then start, then end) and query construction. -/
def queryActionsLog (runId : String) (startT endT : Option String) :
    Except ValidationError String :=
  if !pyUUIDParses runId then Except.error (.invalidRunId runId)
  else match validateOptTimestamp startT with
    | Except.error e => Except.error e
    | Except.ok () =>
      match validateOptTimestamp endT with
      | Except.error e => Except.error e
      | Except.ok () =>
        Except.ok (streamSelector "action" runId ++ timeClause startT endT)

/-- `query_raw_events_log` up to the network call: both UUIDs are validated
(run id first), then the timestamps, then the query is built with the
`event_id` literal match and a hard `| limit 1`. -/
def queryRawEventsLog (runId eventId : String) (startT endT : Option String) :
    Except ValidationError String :=
  if !pyUUIDParses runId then Except.error (.invalidUUID runId)
  else if !pyUUIDParses eventId then Except.error (.invalidUUID eventId)
  else match validateOptTimestamp startT with
    | Except.error e => Except.error e
    | Except.ok () =>
      match validateOptTimestamp endT with
      | Except.error e => Except.error e
      | Except.ok () =>
        Except.ok (streamSelector "events" runId ++ " event_id:\"" ++ eventId ++ "\""
          ++ timeClause startT endT ++ " | limit 1")

/-- `query_logs_by_stream` up to the network call: validation order (run id,
stream type, start, end) and query construction with the optional limit. -/
def queryLogsByStream (runId streamType : String) (startT endT : Option String)
    (limit : Option Int) : Except ValidationError String :=
  if !pyUUIDParses runId then Except.error (.invalidRunId runId)
  else if ¬(streamType = "action" ∨ streamType = "events") then
    Except.error (.invalidStreamType streamType)
  else match validateOptTimestamp startT with
    | Except.error e => Except.error e
    | Except.ok () =>
      match validateOptTimestamp endT with
      | Except.error e => Except.error e
      | Except.ok () =>
        Except.ok (streamSelector streamType runId ++ timeClause startT endT
          ++ limitClause limit)

example :
    queryActionsLog "123e4567-e89b-12d3-a456-426614174000"
      (some "2025-05-17T04:44:00Z") (some "2025-05-17T04:45:00Z") =
    Except.ok ("\x7bstream=\"action\", run_id=\"123e4567-e89b-12d3-a456-426614174000\"\x7d"
      ++ " _time:[2025-05-17T04:44:00Z,2025-05-17T04:45:00Z]") := rfl

/-- A JSON object as Python's `json.loads` produces it for a log record:
ordered key-value pairs (values abstracted to their serialized form, which
is all the ingestion code ever does with them). -/
abbrev Record := List (String × String)

/-- A line of NDJSON input, abstracted by its parse outcome: blank after
stripping, malformed JSON (`json.JSONDecodeError`), or a well-formed
object. -/
inductive LogLine where
  | blank
  | malformed (raw : String)
  | wellFormed (fields : Record)
deriving DecidableEq, Repr

def LogLine.isWellFormed : LogLine → Bool
  | .wellFormed _ => true
  | _ => false

def LogLine.isMalformed : LogLine → Bool
  | .malformed _ => true
  | _ => false

/-- Whether the line yields a parsed object, and which. -/
def LogLine.toRecord : LogLine → Option Record
  | .wellFormed fields => some fields
  | _ => none

/-- Python dict read `d[k]` (as an option): first binding for the key. -/
def dictGet (d : Record) (k : String) : Option String :=
  match d with
  | [] => none
  | (k1, v) :: rest => if k1 = k then some v else dictGet rest k

/-- Python dict write `d[k] = v`: replace the value in place if the key is
present, else append the new binding at the end (insertion order). -/
def dictSet (d : Record) (k v : String) : Record :=
  if d.any (fun p => p.1 = k) then
    d.map (fun p => if p.1 = k then (k, v) else p)
  else d ++ [(k, v)]

/-- The enrichment performed on each parsed record before transmission:
`log_entry['run_id'] = run_id; log_entry['stream'] = stream_name`. -/
def enrich (runId streamName : String) (fields : Record) : Record :=
  dictSet (dictSet fields "run_id" runId) "stream" streamName

def INGESTION_BATCH_SIZE : Nat := 1000

/-- The batching loop of `_ingest_log_file`: blank and malformed lines are
skipped; each well-formed line is enriched and appended to the running
batch; a batch is sent as soon as it reaches `INGESTION_BATCH_SIZE`; a
nonempty remainder is sent at end of file. Returns the batches passed to
`_send_batch`, in order. -/
def ingestBatches (runId streamName : String) : List LogLine → List Record → List (List Record)
  | [], batch => if batch.isEmpty then [] else [batch]
  | .blank :: ls, batch => ingestBatches runId streamName ls batch
  | .malformed _ :: ls, batch => ingestBatches runId streamName ls batch
  | .wellFormed fields :: ls, batch =>
    let batch1 := batch ++ [enrich runId streamName fields]
    if INGESTION_BATCH_SIZE ≤ batch1.length then
      batch1 :: ingestBatches runId streamName ls []
    else
      ingestBatches runId streamName ls batch1

/-- Number of lines the ingestion loop counts (`line_count`): the
well-formed ones. -/
def countValid : List LogLine → Nat
  | [] => 0
  | l :: ls => (if l.isWellFormed then 1 else 0) + countValid ls

/-- Batch sizes dictated by the batching rule: full batches of
`INGESTION_BATCH_SIZE`, then one nonempty remainder. -/
def chunkLens (n : Nat) : List Nat :=
  List.replicate (n / INGESTION_BATCH_SIZE) INGESTION_BATCH_SIZE ++
    (if n % INGESTION_BATCH_SIZE = 0 then [] else [n % INGESTION_BATCH_SIZE])

/-- `_execute_query`'s response handling: iterate over the body's lines,
skip blank lines, skip lines that fail to parse (warning only), and return
the parsed objects in order, unmodified. -/
def executeQueryParse : List LogLine → List Record
  | [] => []
  | .blank :: ls => executeQueryParse ls
  | .malformed _ :: ls => executeQueryParse ls
  | .wellFormed fields :: ls => fields :: executeQueryParse ls

/-- `query_logs_by_stream` end to end against a backend `respond` mapping a
query string to the response body's lines. First component: the queries
actually POSTed to `/select/logsql/query` (empty on validation failure,
which is raised before any network call). -/
def queryLogsByStreamOp (runId streamType : String) (startT endT : Option String)
    (limit : Option Int) (respond : String → List LogLine) :
    List String × Except ValidationError (List Record) :=
  match queryLogsByStream runId streamType startT endT limit with
  | Except.error e => ([], Except.error e)
  | Except.ok q => ([q], Except.ok (executeQueryParse (respond q)))

/-- `query_actions_log` end to end against a backend `respond`. -/
def queryActionsLogOp (runId : String) (startT endT : Option String)
    (respond : String → List LogLine) :
    List String × Except ValidationError (List Record) :=
  match queryActionsLog runId startT endT with
  | Except.error e => ([], Except.error e)
  | Except.ok q => ([q], Except.ok (executeQueryParse (respond q)))

/-- `query_raw_events_log` end to end against a backend `respond`:
`results[0] if results else None`. -/
def queryRawEventsLogOp (runId eventId : String) (startT endT : Option String)
    (respond : String → List LogLine) :
    List String × Except ValidationError (Option Record) :=
  match queryRawEventsLog runId eventId startT endT with
  | Except.error e => ([], Except.error e)
  | Except.ok q => ([q], Except.ok ((executeQueryParse (respond q)).head?))

/-- One entry of `self.task_status`. -/
structure TaskEntry where
  task_id : String
  status : String
  error : Option String
deriving DecidableEq, Repr

/-- The task-status map (`self.task_status`), keyed by task id. -/
def Registry := String → Option TaskEntry

/-- The registry at handler construction time: empty. -/
def emptyRegistry : Registry := fun _ => none

/-- `_update_task_status`: unconditionally overwrite the task's entry
(under `task_lock`). -/
def updateTaskStatus (reg : Registry) (taskId status : String)
    (error : Option String) : Registry :=
  fun t => if t = taskId then some ⟨taskId, status, error⟩ else reg t

/-- `check_ingestion_status`: return a copy of the entry, or raise
`ValueError` for an unknown task id. A pure read of the registry. -/
def checkIngestionStatus (reg : Registry) (taskId : String) : Except String TaskEntry :=
  match reg taskId with
  | none => Except.error ("Task ID not found: " ++ taskId)
  | some e => Except.ok e

/-- Outcomes of the effectful steps available to one run of
`_ingestion_worker`: each `Except String _` is the step's result, an error
carrying the raised exception's message (`str(e)`). `findLogs` yields
which of `actions.log` / `raw_events.log` were located. -/
structure WorkerEnv where
  download : Except String Unit
  unpack : Except String Unit
  findLogs : Except String (Bool × Bool)
  ingestActions : Except String Unit
  ingestEvents : Except String Unit

/-- The body of `_ingestion_worker`'s `try` block: download, unpack, locate
the two log files, ingest whichever are present (a missing file is only a
warning). -/
def workerChain (env : WorkerEnv) : Except String Unit := do
  env.download
  env.unpack
  let (hasActions, hasEvents) ← env.findLogs
  if hasActions then env.ingestActions else pure ()
  if hasEvents then env.ingestEvents else pure ()

/-- The single status update `_ingestion_worker` performs: `completed` when
the chain succeeds, `failed` with `str(e)` when any step raises. The
function is total: the worker never re-raises. -/
def ingestionWorkerUpdate (env : WorkerEnv) : String × Option String :=
  match workerChain env with
  | Except.ok _ => ("completed", none)
  | Except.error msg => ("failed", some msg)

/-- All status updates the system ever performs on one ingestion task:
`pending` at creation (in `ingest_logs`), then the worker's one terminal
update. -/
def taskLifecycleUpdates (env : WorkerEnv) : List (String × Option String) :=
  ("pending", none) :: [ingestionWorkerUpdate env]

/-- An operation touching the registry: a locked status write, or a poll. -/
inductive RegOp where
  | update (taskId status : String) (error : Option String)
  | poll (taskId : String)

/-- Effect of one operation on the registry; `check_ingestion_status` only
reads (and returns a copy), so a poll leaves the registry unchanged. -/
def applyOp (reg : Registry) : RegOp → Registry
  | .update taskId status error => updateTaskStatus reg taskId status error
  | .poll _ => reg

def applyOps (reg : Registry) : List RegOp → Registry
  | [] => reg
  | op :: ops => applyOps (applyOp reg op) ops

/-- The subsequence of status writes an operation list performs on one
task id. -/
def updatesFor (taskId : String) : List RegOp → List (String × Option String)
  | [] => []
  | RegOp.update t s e :: ops =>
    if t = taskId then (s, e) :: updatesFor taskId ops else updatesFor taskId ops
  | RegOp.poll _ :: ops => updatesFor taskId ops

def isTerminal (status : String) : Bool :=
  status = "completed" || status = "failed"

/-- `l1` is an initial segment of `l2`. -/
def listPrefixOf (l1 l2 : List (String × Option String)) : Prop :=
  ∃ t, l1 ++ t = l2

/-- `_get_docker_command`'s literal. -/
def dockerCommand : String :=
  "docker run -d --name victoria-logs -p 9428:9428 "
    ++ "-v $(pwd)/cache/victoria-logs-data:/victoria-logs-data "
    ++ "victoriametrics/victoria-logs"

/-- `_check_victoria_logs`: `GET /health` outcome, true only for HTTP 200;
any transport error yields false. -/
def checkVictoriaLogs (healthResp : Except String Nat) : Bool :=
  match healthResp with
  | Except.ok code => code = 200
  | Except.error _ => false

/-- What `ingest_logs` produces: the returned string (task id or Docker
command), the registry afterwards, and the task id of a spawned background
worker, if any. -/
structure IngestResult where
  output : String
  registry : Registry
  spawnedWorker : Option String

/-- `ingest_logs` up to spawning the worker thread: validate the run id
(raising before any network request), probe `/health`, and either return
the Docker command unchanged-registry (store unreachable) or register a
`pending` task and spawn the worker. First component: network requests
issued. -/
def ingestLogsOp (runId : String) (healthResp : Except String Nat)
    (newTaskId : String) (reg : Registry) :
    List String × Except ValidationError IngestResult :=
  if pyUUIDParses runId then
    if checkVictoriaLogs healthResp then
      (["GET /health"],
        Except.ok ⟨newTaskId, updateTaskStatus reg newTaskId "pending" none, some newTaskId⟩)
    else
      (["GET /health"], Except.ok ⟨dockerCommand, reg, none⟩)
  else ([], Except.error (.invalidRunId runId))

/-- The exact expression the spec promises for an event lookup with no time
bounds (spec side, for comparison against `queryRawEventsLog`). -/
def specEventQueryExpr (runId eventId : String) : String :=
  "\x7bstream=\"events\", run_id=\"" ++ runId ++ "\"\x7d event_id:\"" ++ eventId
    ++ "\" | limit 1"

theorem queryRawEventsLog_no_bounds (runId eventId : String)
    (hrun : pyUUIDParses runId = true) (hev : pyUUIDParses eventId = true) :
    queryRawEventsLog runId eventId none none =
      Except.ok (specEventQueryExpr runId eventId) := by
  simp only [queryRawEventsLog, hrun, hev, Bool.not_true, Bool.false_eq_true, if_false,
    validateOptTimestamp, Except.ok.injEq]
  apply String.ext
  simp [streamSelector, specEventQueryExpr, timeClause, isTruthy, String.data_append]

/-- C1: for every valid run id and valid event id, the event-scoped query
with no time bounds builds exactly
`\x7bstream="events", run_id="R"\x7d event_id:"E" | limit 1`; a backend
response with zero lines yields `none` (no error), and a response whose
parsed results are nonempty yields the first parsed result. -/
theorem claim_C1_event_query (runId eventId : String) (respond : String → List LogLine)
    (hrun : pyUUIDParses runId = true) (hev : pyUUIDParses eventId = true) :
    queryRawEventsLog runId eventId none none =
      Except.ok (specEventQueryExpr runId eventId) ∧
    (respond (specEventQueryExpr runId eventId) = [] →
      queryRawEventsLogOp runId eventId none none respond =
        ([specEventQueryExpr runId eventId], Except.ok none)) ∧
    ∀ r rs, executeQueryParse (respond (specEventQueryExpr runId eventId)) = r :: rs →
      queryRawEventsLogOp runId eventId none none respond =
        ([specEventQueryExpr runId eventId], Except.ok (some r)) := by
  have hq := queryRawEventsLog_no_bounds runId eventId hrun hev
  refine ⟨hq, ?_, ?_⟩
  · intro hresp
    simp only [queryRawEventsLogOp, hq, hresp, executeQueryParse, List.head?]
  · intro r rs hparse
    simp only [queryRawEventsLogOp, hq, hparse, List.head?]

/-- Witness for C1 at concrete UUIDs and an empty-bodied backend. -/
theorem claim_C1_event_query_witness :
    pyUUIDParses "123e4567-e89b-12d3-a456-426614174000" = true ∧
    pyUUIDParses "00000000-0000-0000-0000-000000000001" = true ∧
    queryRawEventsLog "123e4567-e89b-12d3-a456-426614174000"
        "00000000-0000-0000-0000-000000000001" none none =
      Except.ok (specEventQueryExpr "123e4567-e89b-12d3-a456-426614174000"
        "00000000-0000-0000-0000-000000000001") :=
  ⟨by decide, by decide,
    (claim_C1_event_query "123e4567-e89b-12d3-a456-426614174000"
      "00000000-0000-0000-0000-000000000001" (fun _ => [])
      (by decide) (by decide)).1⟩

theorem isISO8601_ne_empty (s : String) (h : isISO8601 s = true) : s ≠ "" := by
  intro h0
  rw [h0] at h
  exact absurd h (by decide)

theorem validateOpt_of_iso (s : String) (h : isISO8601 s = true) :
    validateOptTimestamp (some s) = Except.ok () := by
  simp [validateOptTimestamp, isISO8601_ne_empty s h, h]

theorem queryActionsLog_ok (runId : String) (startT endT : Option String)
    (hrun : pyUUIDParses runId = true)
    (h1 : validateOptTimestamp startT = Except.ok ())
    (h2 : validateOptTimestamp endT = Except.ok ()) :
    queryActionsLog runId startT endT =
      Except.ok (streamSelector "action" runId ++ timeClause startT endT) := by
  simp only [queryActionsLog, hrun, Bool.not_true, Bool.false_eq_true, if_false, h1, h2]

theorem queryLogsByStream_ok (runId streamType : String) (startT endT : Option String)
    (limit : Option Int) (hrun : pyUUIDParses runId = true)
    (hst : streamType = "action" ∨ streamType = "events")
    (h1 : validateOptTimestamp startT = Except.ok ())
    (h2 : validateOptTimestamp endT = Except.ok ()) :
    queryLogsByStream runId streamType startT endT limit =
      Except.ok (streamSelector streamType runId ++ timeClause startT endT
        ++ limitClause limit) := by
  simp only [queryLogsByStream, hrun, Bool.not_true, Bool.false_eq_true, if_false, h1, h2]
  rw [if_neg (not_not_intro hst)]

/-- C2 counterexample: with a supplied start bound that is the empty string
(and no end bound), the claim requires the clause ` _time:[,]` to be
appended, but the code's truthiness test drops the clause entirely. -/
theorem claim_C2_counterexample :
    pyUUIDParses "123e4567-e89b-12d3-a456-426614174000" = true ∧
    queryActionsLog "123e4567-e89b-12d3-a456-426614174000" (some "") none =
      Except.ok "\x7bstream=\"action\", run_id=\"123e4567-e89b-12d3-a456-426614174000\"\x7d" ∧
    ("\x7bstream=\"action\", run_id=\"123e4567-e89b-12d3-a456-426614174000\"\x7d" : String) ≠
      "\x7bstream=\"action\", run_id=\"123e4567-e89b-12d3-a456-426614174000\"\x7d" ++
        " _time:[,]" :=
  ⟨by decide, rfl, by decide⟩

/-- C2 (amended: a bound counts as supplied only when non-empty; an
empty-string bound is falsy and treated as absent): for every valid run id
and validated (hence non-empty) timestamps, the time clause is appended
exactly as claimed in all four presence combinations, for both
`query_actions_log` and `query_logs_by_stream`, and the claim's concrete
`action`-stream example produces exactly the claimed expression. -/
theorem claim_C2_time_clause (runId s e : String) (hrun : pyUUIDParses runId = true)
    (hvs : isISO8601 s = true) (hve : isISO8601 e = true) :
    (queryActionsLog runId (some s) (some e) =
      Except.ok (streamSelector "action" runId ++ " _time:[" ++ s ++ "," ++ e ++ "]")) ∧
    (queryActionsLog runId (some s) none =
      Except.ok (streamSelector "action" runId ++ " _time:[" ++ s ++ ",]")) ∧
    (queryActionsLog runId none (some e) =
      Except.ok (streamSelector "action" runId ++ " _time:[," ++ e ++ "]")) ∧
    (queryActionsLog runId none none = Except.ok (streamSelector "action" runId)) ∧
    (∀ st, st = "action" ∨ st = "events" →
      (queryLogsByStream runId st (some s) (some e) none =
        Except.ok (streamSelector st runId ++ " _time:[" ++ s ++ "," ++ e ++ "]")) ∧
      (queryLogsByStream runId st (some s) none none =
        Except.ok (streamSelector st runId ++ " _time:[" ++ s ++ ",]")) ∧
      (queryLogsByStream runId st none (some e) none =
        Except.ok (streamSelector st runId ++ " _time:[," ++ e ++ "]")) ∧
      (queryLogsByStream runId st none none none =
        Except.ok (streamSelector st runId))) ∧
    (queryActionsLog runId (some "2025-05-17T04:44:00Z") (some "2025-05-17T04:45:00Z") =
      Except.ok ("\x7bstream=\"action\", run_id=\"" ++ runId
        ++ "\"\x7d _time:[2025-05-17T04:44:00Z,2025-05-17T04:45:00Z]")) := by
  have hs := isISO8601_ne_empty s hvs
  have he := isISO8601_ne_empty e hve
  have vs := validateOpt_of_iso s hvs
  have ve := validateOpt_of_iso e hve
  have vn : validateOptTimestamp none = Except.ok () := rfl
  refine ⟨?_, ?_, ?_, ?_, ?_, ?_⟩
  · rw [queryActionsLog_ok runId _ _ hrun vs ve]
    congr 1
    apply String.ext
    simp [timeClause, isTruthy, hs, he, String.data_append]
  · rw [queryActionsLog_ok runId _ _ hrun vs vn]
    congr 1
    apply String.ext
    simp [timeClause, isTruthy, hs, String.data_append]
  · rw [queryActionsLog_ok runId _ _ hrun vn ve]
    congr 1
    apply String.ext
    simp [timeClause, isTruthy, he, String.data_append]
  · rw [queryActionsLog_ok runId _ _ hrun vn vn]
    congr 1
    apply String.ext
    simp [timeClause, isTruthy, String.data_append]
  · intro st hst
    refine ⟨?_, ?_, ?_, ?_⟩
    · rw [queryLogsByStream_ok runId st _ _ none hrun hst vs ve]
      congr 1
      apply String.ext
      simp [timeClause, limitClause, intTruthy, isTruthy, hs, he, String.data_append]
    · rw [queryLogsByStream_ok runId st _ _ none hrun hst vs vn]
      congr 1
      apply String.ext
      simp [timeClause, limitClause, intTruthy, isTruthy, hs, String.data_append]
    · rw [queryLogsByStream_ok runId st _ _ none hrun hst vn ve]
      congr 1
      apply String.ext
      simp [timeClause, limitClause, intTruthy, isTruthy, he, String.data_append]
    · rw [queryLogsByStream_ok runId st _ _ none hrun hst vn vn]
      congr 1
      apply String.ext
      simp [timeClause, limitClause, intTruthy, isTruthy, String.data_append]
  · rw [queryActionsLog_ok runId _ _ hrun
      (validateOpt_of_iso _ (by decide : isISO8601 "2025-05-17T04:44:00Z" = true))
      (validateOpt_of_iso _ (by decide : isISO8601 "2025-05-17T04:45:00Z" = true))]
    congr 1
    apply String.ext
    simp [streamSelector, timeClause, isTruthy, String.data_append]

/-- Witness for the amended C2 at concrete inputs. -/
theorem claim_C2_time_clause_witness :
    pyUUIDParses "123e4567-e89b-12d3-a456-426614174000" = true ∧
    isISO8601 "2025-05-17T04:44:00Z" = true ∧
    isISO8601 "2025-05-17T04:45:00Z" = true ∧
    queryActionsLog "123e4567-e89b-12d3-a456-426614174000"
        (some "2025-05-17T04:44:00Z") (some "2025-05-17T04:45:00Z") =
      Except.ok (streamSelector "action" "123e4567-e89b-12d3-a456-426614174000"
        ++ " _time:[" ++ "2025-05-17T04:44:00Z" ++ "," ++ "2025-05-17T04:45:00Z" ++ "]") :=
  ⟨by decide, by decide, by decide,
    (claim_C2_time_clause "123e4567-e89b-12d3-a456-426614174000"
      "2025-05-17T04:44:00Z" "2025-05-17T04:45:00Z"
      (by decide) (by decide) (by decide)).1⟩

theorem validateOpt_err (s : String) (hs : s ≠ "") (hiso : isISO8601 s = false) :
    validateOptTimestamp (some s) = Except.error (.invalidTimestamp s) := by
  simp [validateOptTimestamp, hs, hiso]

/-- C4 counterexample: the empty string is a supplied timestamp that does
not match the ISO pattern, yet the stream-scoped query raises nothing and
performs a network call (Python truthiness skips validating `""`). -/
theorem claim_C4_counterexample :
    isISO8601 "" = false ∧
    (queryLogsByStreamOp "123e4567-e89b-12d3-a456-426614174000" "action" (some "") none none
        (fun _ => [])).2 = Except.ok [] ∧
    (queryLogsByStreamOp "123e4567-e89b-12d3-a456-426614174000" "action" (some "") none none
        (fun _ => [])).1 ≠ [] := by
  exact ⟨by decide, rfl, by decide⟩

/-- C4 (amended: a supplied timestamp is validated only when non-empty; an
empty-string timestamp is falsy and skips validation): a non-UUID run id
makes every query operation and ingestion fail with a validation error and
zero network requests; an invalid stream type likewise; and every supplied
non-empty pattern-violating timestamp likewise, in either position. -/
theorem claim_C4_validation (runId st eventId : String) (startT endT : Option String)
    (limit : Option Int) (respond : String → List LogLine)
    (healthResp : Except String Nat) (newTaskId : String) (reg : Registry) :
    (pyUUIDParses runId = false →
      queryActionsLogOp runId startT endT respond =
        ([], Except.error (.invalidRunId runId)) ∧
      queryLogsByStreamOp runId st startT endT limit respond =
        ([], Except.error (.invalidRunId runId)) ∧
      queryRawEventsLogOp runId eventId startT endT respond =
        ([], Except.error (.invalidUUID runId)) ∧
      ingestLogsOp runId healthResp newTaskId reg =
        ([], Except.error (.invalidRunId runId))) ∧
    (pyUUIDParses runId = true → ¬(st = "action" ∨ st = "events") →
      queryLogsByStreamOp runId st startT endT limit respond =
        ([], Except.error (.invalidStreamType st))) ∧
    (∀ s, s ≠ "" → isISO8601 s = false →
      (pyUUIDParses runId = true →
        queryActionsLogOp runId (some s) endT respond =
          ([], Except.error (.invalidTimestamp s))) ∧
      (pyUUIDParses runId = true → (st = "action" ∨ st = "events") →
        queryLogsByStreamOp runId st (some s) endT limit respond =
          ([], Except.error (.invalidTimestamp s))) ∧
      (pyUUIDParses runId = true → pyUUIDParses eventId = true →
        queryRawEventsLogOp runId eventId (some s) endT respond =
          ([], Except.error (.invalidTimestamp s))) ∧
      (pyUUIDParses runId = true → validateOptTimestamp startT = Except.ok () →
        queryActionsLogOp runId startT (some s) respond =
          ([], Except.error (.invalidTimestamp s)))) := by
  refine ⟨?_, ?_, ?_⟩
  · intro h
    refine ⟨?_, ?_, ?_, ?_⟩
    · simp [queryActionsLogOp, queryActionsLog, h]
    · simp [queryLogsByStreamOp, queryLogsByStream, h]
    · simp [queryRawEventsLogOp, queryRawEventsLog, h]
    · simp [ingestLogsOp, h]
  · intro h hst
    simp only [queryLogsByStreamOp, queryLogsByStream, h, Bool.not_true, Bool.false_eq_true,
      if_false, if_pos hst]
  · intro s hs hiso
    have verr := validateOpt_err s hs hiso
    refine ⟨?_, ?_, ?_, ?_⟩
    · intro h
      simp only [queryActionsLogOp, queryActionsLog, h, Bool.not_true, Bool.false_eq_true,
        if_false, verr]
    · intro h hst
      simp only [queryLogsByStreamOp, queryLogsByStream, h, Bool.not_true, Bool.false_eq_true,
        if_false, if_neg (not_not_intro hst), verr]
    · intro h hev
      simp only [queryRawEventsLogOp, queryRawEventsLog, h, hev, Bool.not_true,
        Bool.false_eq_true, if_false, verr]
    · intro h hok
      simp only [queryActionsLogOp, queryActionsLog, h, Bool.not_true, Bool.false_eq_true,
        if_false, hok, verr]

/-- Witness for the amended C4 at a concrete non-UUID run id. -/
theorem claim_C4_validation_witness :
    pyUUIDParses "not-a-uuid" = false ∧
    queryLogsByStreamOp "not-a-uuid" "action" none none none (fun _ => []) =
      ([], Except.error (.invalidRunId "not-a-uuid")) :=
  ⟨by decide,
    ((claim_C4_validation "not-a-uuid" "action" "e" none none none (fun _ => [])
      (Except.error "connection refused") "task" emptyRegistry).1 (by decide)).2.1⟩

/-- C10: an explicit limit of 0 is falsy, so the stream-scoped query builds
the same expression as with no limit at all — the `| limit` clause is
absent and zero results cannot be requested. -/
theorem claim_C10_zero_limit (runId streamType : String) (startT endT : Option String) :
    queryLogsByStream runId streamType startT endT (some 0) =
      queryLogsByStream runId streamType startT endT none ∧
    limitClause (some 0) = "" :=
  ⟨rfl, rfl⟩

theorem countValid_eq_length (lines : List LogLine)
    (h : ∀ l ∈ lines, l.isWellFormed = true) : countValid lines = lines.length := by
  induction lines with
  | nil => rfl
  | cons l ls ih =>
    have hl := h l (List.mem_cons_self l ls)
    have ihh := ih (fun x hx => h x (List.mem_cons_of_mem l hx))
    simp [countValid, hl, ihh, Nat.add_comm]

theorem chunkLens_add_batch (n : Nat) :
    chunkLens (n + INGESTION_BATCH_SIZE) = INGESTION_BATCH_SIZE :: chunkLens n := by
  simp [chunkLens, Nat.add_div_right n (by decide : 0 < INGESTION_BATCH_SIZE),
    Nat.add_mod_right, List.replicate_succ]

theorem countValid_cons_wf (f : Record) (ls : List LogLine) :
    countValid (LogLine.wellFormed f :: ls) = 1 + countValid ls := rfl

theorem countValid_cons_blank (ls : List LogLine) :
    countValid (LogLine.blank :: ls) = countValid ls := by
  simp [countValid, LogLine.isWellFormed]

theorem countValid_cons_malformed (raw : String) (ls : List LogLine) :
    countValid (LogLine.malformed raw :: ls) = countValid ls := by
  simp [countValid, LogLine.isWellFormed]

theorem ingestBatches_map_length (runId streamName : String) :
    ∀ (lines : List LogLine) (batch : List Record),
      batch.length < INGESTION_BATCH_SIZE →
      (ingestBatches runId streamName lines batch).map List.length =
        chunkLens (batch.length + countValid lines) := by
  intro lines
  induction lines with
  | nil =>
    intro batch hb
    cases batch with
    | nil => simp [ingestBatches, countValid, chunkLens]
    | cons r rs =>
      have hb2 : rs.length + 1 < INGESTION_BATCH_SIZE := by simpa using hb
      have hmod : (rs.length + 1) % INGESTION_BATCH_SIZE = rs.length + 1 :=
        Nat.mod_eq_of_lt hb2
      have hdiv : (rs.length + 1) / INGESTION_BATCH_SIZE = 0 := Nat.div_eq_of_lt hb2
      simp [ingestBatches, countValid, chunkLens, hmod, hdiv]
  | cons l ls ih =>
    intro batch hb
    cases l with
    | blank =>
      rw [countValid_cons_blank]
      simpa [ingestBatches] using ih batch hb
    | malformed raw =>
      rw [countValid_cons_malformed]
      simpa [ingestBatches] using ih batch hb
    | wellFormed fields =>
      rw [countValid_cons_wf]
      simp only [ingestBatches]
      by_cases hfull :
          INGESTION_BATCH_SIZE ≤ (batch ++ [enrich runId streamName fields]).length
      · rw [if_pos hfull]
        have hlen : (batch ++ [enrich runId streamName fields]).length =
            batch.length + 1 := by simp
        have h1000 : batch.length + 1 = INGESTION_BATCH_SIZE := by
          rw [hlen] at hfull; omega
        have ih0 := ih [] (by decide)
        simp only [List.map_cons, ih0, List.length_nil, Nat.zero_add, hlen, h1000]
        have harg : batch.length + (1 + countValid ls) =
            countValid ls + INGESTION_BATCH_SIZE := by omega
        rw [harg, chunkLens_add_batch]
      · rw [if_neg hfull]
        have hlt : (batch ++ [enrich runId streamName fields]).length <
            INGESTION_BATCH_SIZE := by omega
        rw [ih _ hlt]
        have hlen : (batch ++ [enrich runId streamName fields]).length =
            batch.length + 1 := by simp
        rw [hlen]
        congr 1
        omega

/-- C3: a file of exactly 1500 well-formed lines is transmitted as exactly
two batches of sizes 1000 then 500; in general, the batch sizes are
`INGESTION_BATCH_SIZE`-sized full batches flushed as soon as the
accumulator reaches that size, plus one nonempty remainder at end of
file. -/
theorem claim_C3_batching (runId streamName : String) (lines : List LogLine)
    (hwf : ∀ l ∈ lines, l.isWellFormed = true) (hlen : lines.length = 1500) :
    (ingestBatches runId streamName lines []).map List.length = [1000, 500] ∧
    ∀ ls : List LogLine, (ingestBatches runId streamName ls []).map List.length =
      chunkLens (countValid ls) := by
  have hgen : ∀ ls : List LogLine,
      (ingestBatches runId streamName ls []).map List.length = chunkLens (countValid ls) := by
    intro ls
    simpa using ingestBatches_map_length runId streamName ls [] (by decide)
  refine ⟨?_, hgen⟩
  rw [hgen lines, countValid_eq_length lines hwf, hlen]
  decide

/-- Witness for C3 at a concrete 1500-line file. -/
theorem claim_C3_batching_witness :
    (∀ l ∈ List.replicate 1500 (LogLine.wellFormed ([] : Record)), l.isWellFormed = true) ∧
    (List.replicate 1500 (LogLine.wellFormed ([] : Record))).length = 1500 ∧
    (ingestBatches "r" "s" (List.replicate 1500 (LogLine.wellFormed [])) []).map
      List.length = [1000, 500] :=
  ⟨fun l hl => by rw [List.eq_of_mem_replicate hl]; rfl, List.length_replicate 1500 _,
    (claim_C3_batching "r" "s" _
      (fun l hl => by rw [List.eq_of_mem_replicate hl]; rfl)
      (List.length_replicate 1500 _)).1⟩

/-- C8: a malformed line is skipped with only a warning — the batches
transmitted for any file equal, batch for batch and record for record,
those transmitted for the same file with its malformed lines removed. -/
theorem claim_C8_malformed_skipped (runId streamName : String) (lines : List LogLine)
    (batch : List Record) :
    ingestBatches runId streamName lines batch =
      ingestBatches runId streamName (lines.filter (fun l => !l.isMalformed)) batch := by
  induction lines generalizing batch with
  | nil => rfl
  | cons l ls ih =>
    cases l with
    | blank =>
      rw [List.filter_cons_of_pos (by rfl)]
      simp only [ingestBatches]
      exact ih batch
    | malformed raw =>
      rw [List.filter_cons_of_neg (by simp [LogLine.isMalformed])]
      simp only [ingestBatches]
      exact ih batch
    | wellFormed fields =>
      rw [List.filter_cons_of_pos (by rfl)]
      simp only [ingestBatches]
      by_cases hfull :
          INGESTION_BATCH_SIZE ≤ (batch ++ [enrich runId streamName fields]).length
      · rw [if_pos hfull, if_pos hfull, ih []]
      · rw [if_neg hfull, if_neg hfull, ih _]

theorem dictGet_cons (k1 v1 : String) (rest : Record) (k : String) :
    dictGet ((k1, v1) :: rest) k = if k1 = k then some v1 else dictGet rest k := rfl

theorem dictGet_map_set (d : Record) (k v : String) :
    dictGet (d.map (fun p => if p.1 = k then (k, v) else p)) k =
      if d.any (fun p => p.1 = k) then some v else none := by
  induction d with
  | nil => rfl
  | cons p rest ih =>
    obtain ⟨k1, v1⟩ := p
    have hhead : (if ((k1, v1) : String × String).1 = k then (k, v) else (k1, v1)) =
        if k1 = k then (k, v) else (k1, v1) := rfl
    rw [List.map_cons, hhead]
    have hany : (((k1, v1) :: rest).any fun p => p.1 = k) =
        ((decide (k1 = k)) || rest.any fun p => p.1 = k) := rfl
    rw [hany]
    by_cases h : k1 = k
    · rw [if_pos h, dictGet_cons, if_pos rfl, decide_eq_true h, Bool.true_or]
      rfl
    · rw [if_neg h, dictGet_cons, if_neg h, ih, decide_eq_false h, Bool.false_or]

theorem dictGet_map_set_other (d : Record) (k v k2 : String) (h : k2 ≠ k) :
    dictGet (d.map (fun p => if p.1 = k then (k, v) else p)) k2 = dictGet d k2 := by
  induction d with
  | nil => rfl
  | cons p rest ih =>
    obtain ⟨k1, v1⟩ := p
    have hhead : (if ((k1, v1) : String × String).1 = k then (k, v) else (k1, v1)) =
        if k1 = k then (k, v) else (k1, v1) := rfl
    rw [List.map_cons, hhead]
    by_cases h1 : k1 = k
    · have h2 : ¬(k1 = k2) := fun hh => h (hh ▸ h1)
      rw [if_pos h1, dictGet_cons, if_neg (fun hh => h hh.symm), ih,
        dictGet_cons, if_neg h2]
    · rw [if_neg h1, dictGet_cons, dictGet_cons, ih]

theorem dictGet_append_single (d : Record) (k v : String)
    (h : d.any (fun p => p.1 = k) = false) :
    dictGet (d ++ [(k, v)]) k = some v := by
  induction d with
  | nil => simp [dictGet_cons, dictGet]
  | cons p rest ih =>
    obtain ⟨k1, v1⟩ := p
    simp only [List.any_cons, Bool.or_eq_false_iff, decide_eq_false_iff_not] at h
    simp only [List.cons_append, dictGet_cons, if_neg h.1, ih h.2]

theorem dictGet_append_single_other (d : Record) (k v k2 : String) (h : k2 ≠ k) :
    dictGet (d ++ [(k, v)]) k2 = dictGet d k2 := by
  induction d with
  | nil =>
    have h2 : ¬(k = k2) := fun hh => h hh.symm
    simp [dictGet_cons, dictGet, h2]
  | cons p rest ih =>
    obtain ⟨k1, v1⟩ := p
    simp only [List.cons_append, dictGet_cons, ih]

theorem dictGet_dictSet_self (d : Record) (k v : String) :
    dictGet (dictSet d k v) k = some v := by
  cases hany : d.any (fun p => p.1 = k) with
  | false =>
    have hne : ¬(d.any (fun p => p.1 = k) = true) := by simp [hany]
    rw [dictSet, if_neg hne, dictGet_append_single d k v hany]
  | true =>
    rw [dictSet, if_pos hany, dictGet_map_set, if_pos hany]

theorem dictGet_dictSet_other (d : Record) (k v k2 : String) (h : k2 ≠ k) :
    dictGet (dictSet d k v) k2 = dictGet d k2 := by
  cases hany : d.any (fun p => p.1 = k) with
  | false =>
    have hne : ¬(d.any (fun p => p.1 = k) = true) := by simp [hany]
    rw [dictSet, if_neg hne, dictGet_append_single_other d k v k2 h]
  | true =>
    rw [dictSet, if_pos hany, dictGet_map_set_other d k v k2 h]

theorem mem_ingestBatches (runId streamName : String) (lines : List LogLine) :
    ∀ (batch b : List Record) (rec : Record),
      b ∈ ingestBatches runId streamName lines batch → rec ∈ b →
      rec ∈ batch ∨ ∃ fields, LogLine.wellFormed fields ∈ lines ∧
        rec = enrich runId streamName fields := by
  induction lines with
  | nil =>
    intro batch b rec hb hrec
    simp only [ingestBatches] at hb
    cases hempty : batch.isEmpty with
    | false =>
      have hne : ¬(batch.isEmpty = true) := by simp [hempty]
      rw [if_neg hne] at hb
      have hbb := List.mem_singleton.mp hb
      subst hbb
      exact Or.inl hrec
    | true =>
      rw [if_pos hempty] at hb
      exact absurd hb (List.not_mem_nil b)
  | cons l ls ih =>
    intro batch b rec hb hrec
    cases l with
    | blank =>
      rcases ih batch b rec (by simpa [ingestBatches] using hb) hrec with h | ⟨f, hf, hrw⟩
      · exact Or.inl h
      · exact Or.inr ⟨f, List.mem_cons_of_mem _ hf, hrw⟩
    | malformed raw =>
      rcases ih batch b rec (by simpa [ingestBatches] using hb) hrec with h | ⟨f, hf, hrw⟩
      · exact Or.inl h
      · exact Or.inr ⟨f, List.mem_cons_of_mem _ hf, hrw⟩
    | wellFormed fields =>
      simp only [ingestBatches] at hb
      by_cases hfull :
          INGESTION_BATCH_SIZE ≤ (batch ++ [enrich runId streamName fields]).length
      · rw [if_pos hfull] at hb
        rcases List.mem_cons.mp hb with rfl | hb2
        · rcases List.mem_append.mp hrec with h | h
          · exact Or.inl h
          · exact Or.inr ⟨fields, List.mem_cons_self _ _, by simpa using h⟩
        · rcases ih [] b rec hb2 hrec with h | ⟨f, hf, hrw⟩
          · exact absurd h (List.not_mem_nil rec)
          · exact Or.inr ⟨f, List.mem_cons_of_mem _ hf, hrw⟩
      · rw [if_neg hfull] at hb
        rcases ih _ b rec hb hrec with h | ⟨f, hf, hrw⟩
        · rcases List.mem_append.mp h with h2 | h2
          · exact Or.inl h2
          · exact Or.inr ⟨fields, List.mem_cons_self _ _, by simpa using h2⟩
        · exact Or.inr ⟨f, List.mem_cons_of_mem _ hf, hrw⟩

/-- C9: every transmitted record is the enrichment — performed exactly once,
before transmission — of a well-formed input line: it carries `run_id` and
`stream` set to the injected values, and every other key maps exactly as in
the original parsed object; and query execution returns the response's
parsed objects unchanged (no injection at query time). -/
theorem claim_C9_enrichment (runId streamName : String) (lines : List LogLine)
    (b : List Record) (rec : Record)
    (hb : b ∈ ingestBatches runId streamName lines [])
    (hrec : rec ∈ b) :
    (∃ fields, LogLine.wellFormed fields ∈ lines ∧
      rec = enrich runId streamName fields ∧
      dictGet rec "run_id" = some runId ∧
      dictGet rec "stream" = some streamName ∧
      ∀ k, k ≠ "run_id" → k ≠ "stream" →
        dictGet rec k = dictGet fields k) ∧
    ∀ resp : List LogLine, executeQueryParse resp = resp.filterMap LogLine.toRecord := by
  constructor
  · rcases mem_ingestBatches runId streamName lines [] b rec hb hrec with h | ⟨f, hf, hrw⟩
    · exact absurd h (List.not_mem_nil rec)
    · refine ⟨f, hf, hrw, ?_, ?_, ?_⟩
      · rw [hrw]
        unfold enrich
        rw [dictGet_dictSet_other _ _ _ _ (by decide), dictGet_dictSet_self]
      · rw [hrw]
        unfold enrich
        rw [dictGet_dictSet_self]
      · intro k hk1 hk2
        rw [hrw]
        unfold enrich
        rw [dictGet_dictSet_other _ _ _ _ hk2, dictGet_dictSet_other _ _ _ _ hk1]
  · intro resp
    induction resp with
    | nil => rfl
    | cons l ls ih =>
      cases l <;> simp [executeQueryParse, LogLine.toRecord, List.filterMap_cons, ih]

/-- Witness for C9 at a one-line file. -/
theorem claim_C9_enrichment_witness :
    ([enrich "r" "s" [("a", "b")]] ∈
      ingestBatches "r" "s" [LogLine.wellFormed [("a", "b")]] []) ∧
    (enrich "r" "s" [("a", "b")] ∈ [enrich "r" "s" [("a", "b")]]) ∧
    ∃ fields, LogLine.wellFormed fields ∈ [LogLine.wellFormed [("a", "b")]] ∧
      enrich "r" "s" [("a", "b")] = enrich "r" "s" fields ∧
      dictGet (enrich "r" "s" [("a", "b")]) "run_id" = some "r" ∧
      dictGet (enrich "r" "s" [("a", "b")]) "stream" = some "s" ∧
      ∀ k, k ≠ "run_id" → k ≠ "stream" →
        dictGet (enrich "r" "s" [("a", "b")]) k = dictGet fields k :=
  ⟨by decide, by decide,
    (claim_C9_enrichment "r" "s" [LogLine.wellFormed [("a", "b")]]
      [enrich "r" "s" [("a", "b")]] (enrich "r" "s" [("a", "b")])
      (by decide) (by decide)).1⟩

/-- C5: the ingestion worker is total (never re-raises): when the whole
chain — download, unpack, locate, ingest present files — succeeds, it
records `completed`; when any step raises (in particular the download),
it records `failed` with that exception's message; and every run records
exactly one of the two. -/
theorem claim_C5_worker (env : WorkerEnv) :
    (workerChain env = Except.ok () → ingestionWorkerUpdate env = ("completed", none)) ∧
    (∀ msg, workerChain env = Except.error msg →
      ingestionWorkerUpdate env = ("failed", some msg)) ∧
    (∀ msg, env.download = Except.error msg →
      ingestionWorkerUpdate env = ("failed", some msg)) ∧
    (∀ ha he, env.download = Except.ok () → env.unpack = Except.ok () →
      env.findLogs = Except.ok (ha, he) →
      (ha = true → env.ingestActions = Except.ok ()) →
      (he = true → env.ingestEvents = Except.ok ()) →
      ingestionWorkerUpdate env = ("completed", none)) ∧
    (ingestionWorkerUpdate env = ("completed", none) ∨
      ∃ msg, ingestionWorkerUpdate env = ("failed", some msg)) := by
  refine ⟨?_, ?_, ?_, ?_, ?_⟩
  · intro h
    rw [ingestionWorkerUpdate, h]
  · intro msg h
    rw [ingestionWorkerUpdate, h]
  · intro msg h
    have hchain : workerChain env = Except.error msg := by
      simp [workerChain, h, Bind.bind, Except.bind]
    rw [ingestionWorkerUpdate, hchain]
  · intro ha he h1 h2 h3 h4 h5
    have hchain : workerChain env = Except.ok () := by
      cases ha
      · cases he
        · simp [workerChain, h1, h2, h3, Bind.bind, Except.bind, Pure.pure, Except.pure]
        · simp [workerChain, h1, h2, h3, h5 rfl, Bind.bind, Except.bind, Pure.pure,
            Except.pure]
      · cases he
        · simp [workerChain, h1, h2, h3, h4 rfl, Bind.bind, Except.bind, Pure.pure,
            Except.pure]
        · simp [workerChain, h1, h2, h3, h4 rfl, h5 rfl, Bind.bind, Except.bind,
            Pure.pure, Except.pure]
    rw [ingestionWorkerUpdate, hchain]
  · cases h : workerChain env with
    | ok u =>
      cases u
      exact Or.inl (by rw [ingestionWorkerUpdate, h])
    | error msg =>
      exact Or.inr ⟨msg, by rw [ingestionWorkerUpdate, h]⟩

/-- Witness for C5 at an all-successful environment. -/
theorem claim_C5_worker_witness :
    workerChain ⟨Except.ok (), Except.ok (), Except.ok (true, true), Except.ok (),
        Except.ok ()⟩ = Except.ok () ∧
    ingestionWorkerUpdate ⟨Except.ok (), Except.ok (), Except.ok (true, true),
        Except.ok (), Except.ok ()⟩ = ("completed", none) :=
  ⟨rfl, (claim_C5_worker _).1 rfl⟩

/-- C7: when the health probe fails (non-200 status or transport error),
`ingest_logs` does not raise, creates no task-registry entry and spawns no
worker — it returns the ready-to-run Docker command, after exactly the one
health request. -/
theorem claim_C7_unreachable (runId : String) (healthResp : Except String Nat)
    (newTaskId : String) (reg : Registry) (hrun : pyUUIDParses runId = true)
    (hhealth : checkVictoriaLogs healthResp = false) :
    ingestLogsOp runId healthResp newTaskId reg =
      (["GET /health"], Except.ok ⟨dockerCommand, reg, none⟩) := by
  simp [ingestLogsOp, hrun, hhealth]

/-- Last element of an update sequence. -/
def lastOf : List (String × Option String) → Option (String × Option String)
  | [] => none
  | [u] => some u
  | _ :: u :: us => lastOf (u :: us)

theorem lastOf_cons_cons (x y : String × Option String) (zs : List (String × Option String)) :
    lastOf (x :: y :: zs) = lastOf (y :: zs) := rfl

theorem lastOf_cons_isSome (u : String × Option String)
    (us : List (String × Option String)) : ∃ w, lastOf (u :: us) = some w := by
  induction us generalizing u with
  | nil => exact ⟨u, rfl⟩
  | cons v vs ih => simpa [lastOf_cons_cons] using ih v

theorem updatesFor_append (taskId : String) (ops1 ops2 : List RegOp) :
    updatesFor taskId (ops1 ++ ops2) =
      updatesFor taskId ops1 ++ updatesFor taskId ops2 := by
  induction ops1 with
  | nil => rfl
  | cons op ops ih =>
    cases op with
    | poll t =>
      show updatesFor taskId (RegOp.poll t :: (ops ++ ops2)) = _
      simp only [updatesFor]
      exact ih
    | update t s e =>
      show updatesFor taskId (RegOp.update t s e :: (ops ++ ops2)) = _
      simp only [updatesFor]
      by_cases h : t = taskId
      · rw [if_pos h, if_pos h, List.cons_append, ih]
      · rw [if_neg h, if_neg h, ih]

theorem applyOps_lookup (taskId : String) :
    ∀ (ops : List RegOp) (reg : Registry),
      applyOps reg ops taskId =
        match lastOf (updatesFor taskId ops) with
        | some (s, e) => some ⟨taskId, s, e⟩
        | none => reg taskId := by
  intro ops
  induction ops with
  | nil => intro reg; rfl
  | cons op ops ih =>
    intro reg
    cases op with
    | poll t => exact ih reg
    | update t s e =>
      by_cases h : t = taskId
      · subst h
        show applyOps (updateTaskStatus reg t s e) ops t = _
        rw [ih (updateTaskStatus reg t s e)]
        have hupd : updatesFor t (RegOp.update t s e :: ops) = (s, e) :: updatesFor t ops := by
          simp only [updatesFor]
          exact if_pos trivial
        rw [hupd]
        cases hrest : updatesFor t ops with
        | nil =>
          simp [lastOf, updateTaskStatus]
        | cons u us =>
          rw [lastOf_cons_cons]
          obtain ⟨⟨ws, we⟩, hw⟩ := lastOf_cons_isSome u us
          rw [hw]
      · show applyOps (updateTaskStatus reg t s e) ops taskId = _
        rw [ih (updateTaskStatus reg t s e)]
        have hupd : updatesFor taskId (RegOp.update t s e :: ops) = updatesFor taskId ops := by
          simp only [updatesFor, if_neg h]
        rw [hupd]
        cases hl : lastOf (updatesFor taskId ops) with
        | none =>
          show (if taskId = t then some (⟨t, s, e⟩ : TaskEntry) else reg taskId) = reg taskId
          exact if_neg (fun hh => h hh.symm)
        | some w => rfl

theorem ingestionWorkerUpdate_terminal (env : WorkerEnv) :
    (ingestionWorkerUpdate env).1 = "completed" ∨ (ingestionWorkerUpdate env).1 = "failed" := by
  rw [ingestionWorkerUpdate]
  cases workerChain env with
  | ok u => exact Or.inl rfl
  | error msg => exact Or.inr rfl

/-- C6: once a task's stored status is terminal (`completed` or `failed`),
no later operation of the system changes its entry: the update sequence any
execution performs on one task id is a prefix of the lifecycle
(`pending`, then the worker's single terminal write), polling is a pure
read, and so every later lookup returns the identical entry. -/
theorem claim_C6_terminal_stable (env : WorkerEnv) (ops1 ops2 : List RegOp)
    (taskId : String) (entry : TaskEntry)
    (hvalid : listPrefixOf (updatesFor taskId (ops1 ++ ops2)) (taskLifecycleUpdates env))
    (hlook : applyOps emptyRegistry ops1 taskId = some entry)
    (hterm : isTerminal entry.status = true) :
    applyOps emptyRegistry (ops1 ++ ops2) taskId = some entry ∧
    checkIngestionStatus (applyOps emptyRegistry (ops1 ++ ops2)) taskId =
      Except.ok entry ∧
    ∀ reg : Registry, applyOp reg (RegOp.poll taskId) = reg := by
  rw [applyOps_lookup taskId ops1 emptyRegistry] at hlook
  rw [updatesFor_append] at hvalid
  obtain ⟨tl, htl⟩ := hvalid
  cases hu1 : updatesFor taskId ops1 with
  | nil =>
    rw [hu1] at hlook
    simp [lastOf, emptyRegistry] at hlook
  | cons x rest =>
    cases rest with
    | nil =>
      obtain ⟨xs, xe⟩ := x
      rw [hu1] at hlook htl
      simp only [lastOf] at hlook
      have hentry := Option.some.inj hlook
      simp only [taskLifecycleUpdates, List.cons_append, List.nil_append,
        List.cons.injEq, Prod.mk.injEq] at htl
      obtain ⟨⟨hxs, _⟩, _⟩ := htl
      have hst : entry.status = "pending" := by
        rw [← hentry]
        exact hxs
      rw [hst] at hterm
      exact absurd hterm (by decide)
    | cons y zs =>
      obtain ⟨ys, ye⟩ := y
      rw [hu1] at hlook htl
      simp only [taskLifecycleUpdates, List.cons_append, List.cons.injEq] at htl
      obtain ⟨hx, hy, hrest⟩ := htl
      have hnil : zs = [] ∧ updatesFor taskId ops2 = [] ∧ tl = [] := by
        simpa [List.append_eq_nil] using hrest
      obtain ⟨hzs, hu2, -⟩ := hnil
      subst hzs
      rw [lastOf_cons_cons] at hlook
      simp only [lastOf] at hlook
      have hkey : updatesFor taskId (ops1 ++ ops2) = [x, (ys, ye)] := by
        rw [updatesFor_append, hu1, hu2, List.append_nil]
      have h1 : applyOps emptyRegistry (ops1 ++ ops2) taskId = some entry := by
        rw [applyOps_lookup taskId (ops1 ++ ops2) emptyRegistry, hkey, lastOf_cons_cons]
        simpa [lastOf] using hlook
      refine ⟨h1, ?_, fun reg => rfl⟩
      rw [checkIngestionStatus, h1]

/-- Witness for C6: a full lifecycle followed by a poll leaves the
`completed` entry untouched. -/
theorem claim_C6_terminal_stable_witness :
    listPrefixOf
      (updatesFor "t"
        ([RegOp.update "t" "pending" none, RegOp.update "t" "completed" none] ++
          [RegOp.poll "t"]))
      (taskLifecycleUpdates ⟨Except.ok (), Except.ok (), Except.ok (false, false),
        Except.ok (), Except.ok ()⟩) ∧
    applyOps emptyRegistry [RegOp.update "t" "pending" none,
      RegOp.update "t" "completed" none] "t" = some ⟨"t", "completed", none⟩ ∧
    isTerminal (TaskEntry.mk "t" "completed" none).status = true ∧
    applyOps emptyRegistry
      ([RegOp.update "t" "pending" none, RegOp.update "t" "completed" none] ++
        [RegOp.poll "t"]) "t" = some ⟨"t", "completed", none⟩ :=
  ⟨⟨[], rfl⟩, rfl, by decide,
    (claim_C6_terminal_stable
      ⟨Except.ok (), Except.ok (), Except.ok (false, false), Except.ok (), Except.ok ()⟩
      [RegOp.update "t" "pending" none, RegOp.update "t" "completed" none]
      [RegOp.poll "t"] "t" ⟨"t", "completed", none⟩
      ⟨[], rfl⟩ rfl (by decide)).1⟩

/-- Witness for C7 at a concrete run id and a transport-failed probe. -/
theorem claim_C7_unreachable_witness :
    pyUUIDParses "123e4567-e89b-12d3-a456-426614174000" = true ∧
    checkVictoriaLogs (Except.error "connection refused") = false ∧
    ingestLogsOp "123e4567-e89b-12d3-a456-426614174000"
        (Except.error "connection refused") "task-1" emptyRegistry =
      (["GET /health"], Except.ok ⟨dockerCommand, emptyRegistry, none⟩) :=
  ⟨by decide, rfl,
    claim_C7_unreachable "123e4567-e89b-12d3-a456-426614174000"
      (Except.error "connection refused") "task-1" emptyRegistry (by decide) rfl⟩
